import Mathlib

/-!
Verification of the docauto repository's documentation-transform pipeline.

The development shallowly embeds the relevant code of the repository:

* `src/docugen/transformers.py` (`DocTransformer`): the tree walker that
  decides which declarations need documentation, asks a generator for text,
  and splices the formatted documentation statement back into the body.
* `src/docugen/generator.py` (`BaseDocsGenerator.call_sanitizer` and the
  sanitizer loop of `DocuGen.generate`): the response-sanitizer chain.
* `src/docauto/generator.py` (`DocAutoGenerator`): argument validation,
  prompt building and the token-budget check.

Python strings are modelled as `List Char` (`PyStr`); Python `int` as `Int`
(`len(...)` results as `Nat` cast into `Int` where arithmetic can go
negative).  Fallible Python code (functions that may raise) is modelled with
`Except`.  The concrete-syntax-tree library (libcst) is an external
collaborator: only the node shapes the transformer inspects are modelled
(`Node`, `SmallStmt`, `PyExpr`), and its printer `code_for_node` is modelled
by a simple executable printer `codeForNode`.
-/

/-- Python `str` values, modelled as their list of characters. -/
abbrev PyStr := List Char

/-- Conversion from a Lean string literal to a modelled Python string. -/
def pystr (s : String) : PyStr := s.data

/-- Python `str.splitlines()` restricted to the `\n` terminator (the only
terminator the repository's docstrings use): every line excludes its
terminator, a trailing terminator produces no extra empty line, and the
empty string has no lines. -/
def splitLines : PyStr → List PyStr
  | [] => []
  | c :: cs =>
      if c = '\n' then [] :: splitLines cs
      else
        match splitLines cs with
        | [] => [[c]]
        | l :: ls => (c :: l) :: ls

/-- Python `'\n'.join(lines)`. -/
def joinNL : List PyStr → PyStr
  | [] => []
  | [l] => l
  | l :: ls => l ++ '\n' :: joinNL ls

/-- The whitespace characters Python's `str.strip()` removes. -/
def isPySpace (c : Char) : Bool :=
  c = ' ' || c = '\t' || c = '\n' || c = '\r' || c = '\x0b' || c = '\x0c'

/-- Python `str.strip()` with no argument: remove leading and trailing
whitespace. -/
def pyStrip (s : PyStr) : PyStr :=
  ((s.dropWhile isPySpace).reverse.dropWhile isPySpace).reverse

/-- Python `s.startswith(p)`. -/
def pyStartswith (s p : PyStr) : Bool := p.isPrefixOf s

/-- The expressions the transformer distinguishes: libcst `SimpleString`
(carrying the literal text, quotes included) versus anything else. -/
inductive PyExpr where
  | simpleString (value : PyStr)
  | otherExpr (tag : Nat)
deriving DecidableEq

/-- The small statements inside a libcst `SimpleStatementLine`: `cst.Expr`
wrapping a value, or anything else. -/
inductive SmallStmt where
  | expr (value : PyExpr)
  | otherSmall (tag : Nat)
deriving DecidableEq

/-- The statements the transformer distinguishes inside a module or a
declaration body: a `SimpleStatementLine` with its list of small statements,
a `FunctionDef` or `ClassDef` with its name and (indented-block) body, or
any other statement.  A declaration's `node.body.body` is the `body` list of
its constructor. -/
inductive Node where
  | simple (body : List SmallStmt)
  | functionDef (name : PyStr) (body : List Node)
  | classDef (name : PyStr) (body : List Node)
  | otherStmt (tag : Nat)

mutual

def nodeDecEq : (a b : Node) → Decidable (a = b)
  | .simple x, .simple y =>
      match decEq x y with
      | isTrue h => isTrue (by rw [h])
      | isFalse h => isFalse (by intro hh; injection hh; exact h ‹_›)
  | .simple _, .functionDef _ _ => isFalse (fun h => Node.noConfusion h)
  | .simple _, .classDef _ _ => isFalse (fun h => Node.noConfusion h)
  | .simple _, .otherStmt _ => isFalse (fun h => Node.noConfusion h)
  | .functionDef _ _, .simple _ => isFalse (fun h => Node.noConfusion h)
  | .functionDef n1 b1, .functionDef n2 b2 =>
      match decEq n1 n2, nodeListDecEq b1 b2 with
      | isTrue h1, isTrue h2 => isTrue (by rw [h1, h2])
      | isFalse h1, _ => isFalse (by intro hh; injection hh; exact h1 ‹_›)
      | _, isFalse h2 => isFalse (by intro hh; injection hh; exact h2 ‹_›)
  | .functionDef _ _, .classDef _ _ => isFalse (fun h => Node.noConfusion h)
  | .functionDef _ _, .otherStmt _ => isFalse (fun h => Node.noConfusion h)
  | .classDef _ _, .simple _ => isFalse (fun h => Node.noConfusion h)
  | .classDef _ _, .functionDef _ _ => isFalse (fun h => Node.noConfusion h)
  | .classDef n1 b1, .classDef n2 b2 =>
      match decEq n1 n2, nodeListDecEq b1 b2 with
      | isTrue h1, isTrue h2 => isTrue (by rw [h1, h2])
      | isFalse h1, _ => isFalse (by intro hh; injection hh; exact h1 ‹_›)
      | _, isFalse h2 => isFalse (by intro hh; injection hh; exact h2 ‹_›)
  | .classDef _ _, .otherStmt _ => isFalse (fun h => Node.noConfusion h)
  | .otherStmt _, .simple _ => isFalse (fun h => Node.noConfusion h)
  | .otherStmt _, .functionDef _ _ => isFalse (fun h => Node.noConfusion h)
  | .otherStmt _, .classDef _ _ => isFalse (fun h => Node.noConfusion h)
  | .otherStmt t1, .otherStmt t2 =>
      match decEq t1 t2 with
      | isTrue h => isTrue (by rw [h])
      | isFalse h => isFalse (by intro hh; injection hh; exact h ‹_›)

def nodeListDecEq : (a b : List Node) → Decidable (a = b)
  | [], [] => isTrue rfl
  | [], _ :: _ => isFalse (fun h => List.noConfusion h)
  | _ :: _, [] => isFalse (fun h => List.noConfusion h)
  | x :: xs, y :: ys =>
      match nodeDecEq x y, nodeListDecEq xs ys with
      | isTrue h1, isTrue h2 => isTrue (by rw [h1, h2])
      | isFalse h1, _ => isFalse (by intro hh; injection hh; exact h1 ‹_›)
      | _, isFalse h2 => isFalse (by intro hh; injection hh; exact h2 ‹_›)

end

instance : DecidableEq Node := nodeDecEq

/-- The statement list of a declaration (`node.body.body`); empty for
non-declaration nodes. -/
def Node.bodyList : Node → List Node
  | .functionDef _ b => b
  | .classDef _ b => b
  | _ => []

/-- Replace the statement list of a declaration, as
`node.with_changes(body=node.body.with_changes(body=new_body))` does;
identity on non-declaration nodes. -/
def Node.withBody : Node → List Node → Node
  | .functionDef name _, b => .functionDef name b
  | .classDef name _, b => .classDef name b
  | n, _ => n

/-- The per-statement test used (three times) by `DocTransformer`: the
statement is a `SimpleStatementLine` and some small statement of it is an
`Expr` whose value is a `SimpleString`
(`src/docugen/transformers.py:70-77,148-163`). -/
def is_docstring_stmt (stmt : Node) : Bool :=
  match stmt with
  | .simple ss =>
      ss.any fun s =>
        match s with
        | .expr (.simpleString _) => true
        | _ => false
  | _ => false

/-- `DocTransformer._node_has_docstring` (`src/docugen/transformers.py:68-77`):
`any(...)` over all statements of the declaration body. -/
def node_has_docstring (node : Node) : Bool :=
  node.bodyList.any is_docstring_stmt

/-- `DocTransformer.needs_docstring` (`src/docugen/transformers.py:79-82`). -/
def needs_docstring (overwrite : Bool) (node : Node) : Bool :=
  if node_has_docstring node then overwrite else true

/-- The triple-double-quote delimiter. -/
def tripleDouble : PyStr := ['"', '"', '"']

/-- The triple-single-quote delimiter. -/
def tripleSingle : PyStr := ['\'', '\'', '\'']

/-- The quote style the inner loop of
`DocTransformer.match_existing_quotes_style` extracts from one small
statement: a `SimpleString` returns its opening triple delimiter, anything
else (including a string opening with neither delimiter) is passed over. -/
def quoteStyleOfSmall : SmallStmt → Option PyStr
  | .expr (.simpleString v) =>
      if pyStartswith v tripleDouble then some tripleDouble
      else if pyStartswith v tripleSingle then some tripleSingle
      else none
  | _ => none

/-- `DocTransformer.match_existing_quotes_style`
(`src/docugen/transformers.py:89-106`): scan the body statements in order
for the first `SimpleString` opening with a triple delimiter; default to
triple-double quotes. -/
def match_existing_quotes_style (node : Node) : PyStr :=
  match node.bodyList.findSome? fun stmt =>
      match stmt with
      | Node.simple ss => ss.findSome? quoteStyleOfSmall
      | _ => none with
  | some q => q
  | none => tripleDouble

/-- The `for i, line in enumerate(lines)` loop body of
`DocTransformer.indent_text`, with `i` threaded explicitly: line `0` is kept
when `ignoreFirstLine`, a line whose `strip()` is empty is kept, every other
line is prefixed with `indent`. -/
def indentLinesFrom (indent : PyStr) (ignoreFirstLine : Bool) (i : Nat) :
    List PyStr → List PyStr
  | [] => []
  | l :: ls =>
      (if ignoreFirstLine && i == 0 then l
       else if (pyStrip l).isEmpty then l
       else indent ++ l)
        :: indentLinesFrom indent ignoreFirstLine (i + 1) ls

/-- `DocTransformer.indent_text` (`src/docugen/transformers.py:169-194`):
split into lines, keep the first line (when `ignoreFirstLine`) and
whitespace-only lines as they are, prefix every other line with `spaces`
spaces, and join with newlines. -/
def indent_text (text : PyStr) (spaces : Nat) (ignoreFirstLine : Bool) : PyStr :=
  joinNL (indentLinesFrom (List.replicate spaces ' ') ignoreFirstLine 0 (splitLines text))

/-- `DocTransformer.format_docstring` (`src/docugen/transformers.py:108-126`):
indent the text by 4, pick the quote style (matching the existing style only
when overwriting), and wrap as `{quote}\n{text}\n{quote}`. -/
def format_docstring (overwrite : Bool) (docstring : PyStr) (node : Node) : PyStr :=
  let indented := indent_text docstring 4 true
  let quoteStyle := if overwrite then match_existing_quotes_style node else tripleDouble
  quoteStyle ++ '\n' :: (indented ++ '\n' :: quoteStyle)

/-- `DocTransformer.insert_docstring` (`src/docugen/transformers.py:128-167`):
no-op when not overwriting and a docstring already exists; otherwise format
the docstring, filter out every statement matching the docstring test when
overwriting, and prepend the new documentation statement. -/
def insert_docstring (overwrite : Bool) (node : Node) (docstring : PyStr) : Node :=
  if !overwrite && node_has_docstring node then node
  else
    let formatted := format_docstring overwrite docstring node
    let docNode : Node := .simple [.expr (.simpleString formatted)]
    let filteredBody :=
      if overwrite then node.bodyList.filter (fun stmt => !is_docstring_stmt stmt)
      else node.bodyList
    node.withBody (docNode :: filteredBody)

/-- Models the external libcst printer `cst.Module([]).code_for_node(node)`
(an external collaborator per spec §1/§6): a deterministic executable
rendering of a node as source text, with declaration headers and
4-space-indented blocks. -/
def codeForSmall : SmallStmt → PyStr
  | .expr (.simpleString v) => v
  | .expr (.otherExpr tag) => pystr "<expr " ++ (Nat.toDigits 10 tag) ++ pystr ">"
  | .otherSmall tag => pystr "<small " ++ (Nat.toDigits 10 tag) ++ pystr ">"

mutual

def codeForNode : Node → PyStr
  | .simple ss => joinNL (ss.map codeForSmall)
  | .otherStmt tag => pystr "<stmt " ++ (Nat.toDigits 10 tag) ++ pystr ">"
  | .functionDef name body =>
      pystr "def " ++ name ++ pystr "():" ++ '\n' :: codeForBlock body
  | .classDef name body =>
      pystr "class " ++ name ++ pystr ":" ++ '\n' :: codeForBlock body

def codeForBlock : List Node → PyStr
  | [] => []
  | n :: ns => List.replicate 4 ' ' ++ codeForNode n ++ '\n' :: codeForBlock ns

end

/-- The per-declaration outcome states of the progress tracker. -/
inductive TrackState where
  | pending
  | processed
  | failed
deriving DecidableEq

/-- The mutable state of one `DocTransformer` walk: `self.current_class`
and the progress tracker's log for the `'current_file'` scope. -/
structure WalkState where
  currentClass : Option PyStr
  log : List (Node × TrackState)
deriving DecidableEq

/-- Modelled from the spec: `docugen/tracker.py` (`ProgressTracker`) is
imported by the transformer but its file is not under `src/`.  Per spec §4.8
and §3 (TrackedEntry), `track_object` appends one `(declaration, state)`
entry to an append-only log; entries are never removed or rewritten. -/
def trackObject (st : WalkState) (node : Node) (state : TrackState) : WalkState :=
  { st with log := st.log ++ [(node, state)] }

/-- The generator and parser handed to `DocTransformer.__init__`, and the
`overwrite` flag.  `generate` models `self.generator.generate(source=...,
additional_context=...)` and `parser` models `self.parser(llm_response)`;
both may raise (errors carry a message). -/
structure DocTransformer where
  generate : PyStr → Option PyStr → Except PyStr PyStr
  parser : PyStr → Except PyStr PyStr
  overwrite : Bool

/-- `DocTransformer.generate_docstring` (`src/docugen/transformers.py:84-87`):
print the node, pass context `'Class: {current_class}'` when
`self.current_class` is truthy (non-`None` and non-empty), `None` otherwise. -/
def generate_docstring (t : DocTransformer) (currentClass : Option PyStr)
    (node : Node) : Except PyStr PyStr :=
  let source := codeForNode node
  let context : Option PyStr :=
    match currentClass with
    | some c => if c.isEmpty then none else some (pystr "Class: " ++ c)
    | none => none
  t.generate source context

/-- `DocTransformer._process_node` (`src/docugen/transformers.py:33-56`):
when the node needs a docstring, run generation, parsing and insertion; on
any failure record `failed` for the updated node and return the original
node; otherwise record `processed` and return the (possibly rewritten)
updated node. -/
def processNode (t : DocTransformer) (st : WalkState)
    (originalNode updatedNode : Node) : Node × WalkState :=
  if needs_docstring t.overwrite updatedNode then
    match generate_docstring t st.currentClass updatedNode >>= t.parser with
    | .ok docstring =>
        let updated2 := insert_docstring t.overwrite updatedNode docstring
        (updated2, trackObject st updated2 .processed)
    | .error _ => (originalNode, trackObject st updatedNode .failed)
  else
    (updatedNode, trackObject st updatedNode .processed)

mutual

/-- One libcst transformer visit of a node: `visit_ClassDef` sets
`self.current_class` (never restored) and records `pending`;
`visit_FunctionDef` records `pending`; children are then transformed
depth-first, and `leave_FunctionDef`/`leave_ClassDef` call `_process_node`
with the original node and the child-updated node
(`src/docugen/transformers.py:26-31,58-66`). -/
def transformNode (t : DocTransformer) (st : WalkState) : Node → Node × WalkState
  | .simple ss => (.simple ss, st)
  | .otherStmt tag => (.otherStmt tag, st)
  | .functionDef name body =>
      let original := Node.functionDef name body
      let st1 := trackObject st original .pending
      let p := transformList t st1 body
      processNode t p.2 original (.functionDef name p.1)
  | .classDef name body =>
      let original := Node.classDef name body
      let st0 := { st with currentClass := some name }
      let st1 := trackObject st0 original .pending
      let p := transformList t st1 body
      processNode t p.2 original (.classDef name p.1)

/-- Sequential transformation of a statement list, threading the walk
state. -/
def transformList (t : DocTransformer) (st : WalkState) :
    List Node → List Node × WalkState
  | [] => ([], st)
  | n :: ns =>
      let p := transformNode t st n
      let q := transformList t p.2 ns
      (p.1 :: q.1, q.2)

end

/-- The walk state at the start of one file's pass: `current_class = None`,
empty tracker log. -/
def initialWalkState : WalkState := ⟨none, []⟩

/-- One full `module.visit(transformer)` pass over a parsed module's
top-level statements. -/
def transformModule (t : DocTransformer) (mod : List Node) :
    List Node × WalkState :=
  transformList t initialWalkState mod

/-- A Python exception as the sanitizer chain observes it: a message
(`str(e)`) and the `__cause__` installed by `raise ... from e`. -/
inductive PyExc where
  | mk (message : PyStr) (cause : Option PyExc)

/-- The message of an exception (`str(e)`). -/
def PyExc.message : PyExc → PyStr
  | .mk m _ => m

/-- The `__cause__` of an exception. -/
def PyExc.cause : PyExc → Option PyExc
  | .mk _ c => c

/-- A sanitizer step as `docugen` represents it
(`src/docugen/generator.py:15-20,26-38`): either a bare callable, or a dict
with a `sanitizer` callable and an optional `fail_silent` flag (`none`
models an absent key, which defaults to `False`).  The callable may raise. -/
inductive LLMResponseSanitizer where
  | callable (f : PyStr → Except PyExc PyStr)
  | dict (f : PyStr → Except PyExc PyStr) (failSilentKey : Option Bool)

/-- `BaseDocsGenerator.call_sanitizer` (`src/docugen/generator.py:84-103`):
a bare callable is invoked directly (its exception propagates unchanged); a
dict step is invoked under `try`, and on an exception either the unmodified
input is returned (`fail_silent`) or `ValueError(f'Sanitizer failed: {e}')`
is raised `from e`. -/
def call_sanitizer (sanitizer : LLMResponseSanitizer) (llmResponse : PyStr) :
    Except PyExc PyStr :=
  match sanitizer with
  | .callable f => f llmResponse
  | .dict f failSilentKey =>
      let failSilent := failSilentKey.getD false
      match f llmResponse with
      | .ok r => .ok r
      | .error e =>
          if failSilent then .ok llmResponse
          else .error (.mk (pystr "Sanitizer failed: " ++ e.message) (some e))

/-- The sanitizer loop of `DocuGen.generate`
(`src/docugen/generator.py:169-170`): apply each chain step in order to the
previous step's output; the first uncaught exception aborts the loop. -/
def apply_sanitizers (chain : List LLMResponseSanitizer) (llmResponse : PyStr) :
    Except PyExc PyStr :=
  match chain with
  | [] => .ok llmResponse
  | s :: rest =>
      match call_sanitizer s llmResponse with
      | .ok r => apply_sanitizers rest r
      | .error e => .error e

/-- Whether a chain step is policy-tagged fail-silent: only a dict step with
`fail_silent` present and `True` is (an absent key defaults to `False`; a
bare callable has no policy tag). -/
def isFailSilent : LLMResponseSanitizer → Bool
  | .callable _ => false
  | .dict _ failSilentKey => failSilentKey.getD false

/-- The underlying callable of a chain step. -/
def stepFn : LLMResponseSanitizer → (PyStr → Except PyExc PyStr)
  | .callable f => f
  | .dict f _ => f

/-- An error `e'` carries the underlying cause `e` when it is `e` itself
(a propagated exception) or is chained to it by `raise ... from e`. -/
def carriesCause (e' e : PyExc) : Prop :=
  e' = e ∨ e'.cause = some e

/-- One outbound request to the generation provider, as
`DocAutoGenerator._generate_documentation` issues it
(`src/docauto/generator.py:154-163`): the two message texts and the
`max_tokens` response ceiling. -/
structure ProviderCall where
  systemText : PyStr
  userText : PyStr
  maxTokens : Int
deriving DecidableEq

/-- `self.min_response_context`, set once in
`BaseDocsGenerator.__init__` (`src/docauto/generator.py:33`). -/
def min_response_context : Int := 5000

/-- `DocAutoGenerator._generate_documentation`
(`src/docauto/generator.py:143-164`): tokenize
`f'{system_prompt}\n{prompt}\n'`, raise `ValueError` when the count exceeds
`max_context - min_response_context`, otherwise call the provider with
`max_tokens = max_context - len(tokens)`.  The returned list records the
provider calls made (empty on rejection). -/
def docauto_generate_documentation (maxContext minResponseContext : Int)
    (estimate : PyStr → Nat) (provider : PyStr → PyStr → Int → PyStr)
    (systemPrompt prompt : PyStr) :
    Except PyStr PyStr × List ProviderCall :=
  let tokens : Int := (estimate (systemPrompt ++ '\n' :: (prompt ++ ['\n'])) : Nat)
  if tokens > maxContext - minResponseContext then
    (.error (pystr "Prompt exceeds max_context limit."), [])
  else
    let remainingTokensCount := maxContext - tokens
    (.ok (provider systemPrompt prompt remainingTokensCount),
     [⟨systemPrompt, prompt, remainingTokensCount⟩])

/-- `DocAutoGenerator._build_prompt` (`src/docauto/generator.py:99-116`):
fence the stripped source, append the context line when `context` is truthy,
join with newlines and trim to `prompt_length_limit` characters. -/
def docauto_build_prompt (promptLengthLimit : Nat) (source : PyStr)
    (context : Option PyStr) : PyStr :=
  let promptLines := [pystr "```python", pyStrip source, pystr "```"]
  let promptLines :=
    match context with
    | some c =>
        if c.isEmpty then promptLines
        else promptLines ++ [pystr "Additional context: " ++ c]
    | none => promptLines
  (joinNL promptLines).take promptLengthLimit

/-- `DocAutoGenerator.generate_system_prompt`
(`src/docauto/generator.py:118-141`): the fixed f-string scaffold around
`'\n'.join(self.config.constraints)`. -/
def docauto_generate_system_prompt (constraints : List PyStr) : PyStr :=
  pystr "\n            You're a professional documentation writer.\n\n            You'll be provided with a function/class sourcecode to document.\n            The user will likely provide a format, stick to it.\n\n            You're to only to respond within the constraints below.\n            \n            System constraints:\n            1. You keep it short, precise and accurate. \n            2. You don't ask questions.\n            3. You don't make any assumptions. You use only the facts you're provided.\n\t\t\t4. Don't respond with the docstring quotes.\n            5. Respond in spihx docstring format if the user doesn't provide a format.\n            \n            User constraints:\n                "
    ++ joinNL constraints
    ++ pystr "\n\n            Anything that doesn't match the constraints should be rejected explicitly \n            and mention exactly which constraint was validated.\n        "

/-- The argument of `DocAutoGenerator.generate`: a Python value that is
either a `str` or something else (carrying `str(type(source))` for the
error message). -/
inductive PySource where
  | str (s : PyStr)
  | nonString (typeRepr : PyStr)

/-- The exceptions `DocAutoGenerator.generate` raises for invalid or
oversized input. -/
inductive DocautoError where
  | typeError (message : PyStr)
  | valueError (message : PyStr)
deriving DecidableEq

/-- `DocAutoGenerator.generate` (`src/docauto/generator.py:70-97`): raise
`TypeError` for a non-string source and `ValueError` for an empty one
before anything else; otherwise build the prompt and run
`_generate_documentation`.  The second component records the prompts built
(`_build_prompt` results) and the third the provider calls made.  The
budget `ValueError` raised inside `_generate_documentation` propagates (it
is not an `openai.OpenAIError`); the provider itself is modelled as total,
provider-failure translation being outside the claims considered here. -/
def docauto_generate (maxContext : Int) (promptLengthLimit : Nat)
    (constraints : List PyStr) (estimate : PyStr → Nat)
    (provider : PyStr → PyStr → Int → PyStr)
    (source : PySource) (context : Option PyStr) :
    Except DocautoError PyStr × List PyStr × List ProviderCall :=
  match source with
  | .nonString typeRepr =>
      (.error (.typeError
        (pystr "source parameter can only of type string, received " ++ typeRepr)),
       [], [])
  | .str s =>
      if s.isEmpty then
        (.error (.valueError (pystr "source parameter cannot be empty")), [], [])
      else
        let prompt := docauto_build_prompt promptLengthLimit s context
        let systemPrompt := docauto_generate_system_prompt constraints
        match docauto_generate_documentation maxContext min_response_context
            estimate provider systemPrompt prompt with
        | (.ok r, calls) => (.ok r, [prompt], calls)
        | (.error m, calls) => (.error (.valueError m), [prompt], calls)

/-- A statement that is not itself a Function or Type declaration (the
walker has no visitor for it and leaves it untouched). -/
def isLeafStmt : Node → Bool
  | .simple _ => true
  | .otherStmt _ => true
  | _ => false

/-- Whether a node is a Function or Type declaration. -/
def Node.isDecl : Node → Bool
  | .functionDef _ _ => true
  | .classDef _ _ => true
  | _ => false

mutual

/-- Every Function or Type declaration in the subtree — the node itself
included when it is one — passes the walker's own "has documentation"
test. -/
def allDocumented : Node → Bool
  | .simple _ => true
  | .otherStmt _ => true
  | .functionDef name body =>
      node_has_docstring (.functionDef name body) && allDocumentedList body
  | .classDef name body =>
      node_has_docstring (.classDef name body) && allDocumentedList body

/-- `allDocumented` for every node of a statement list. -/
def allDocumentedList : List Node → Bool
  | [] => true
  | n :: ns => allDocumented n && allDocumentedList ns

end

/-- The quote delimiter `format_docstring` selects for a node. -/
def quoteOf (overwrite : Bool) (node : Node) : PyStr :=
  if overwrite then match_existing_quotes_style node else tripleDouble

/-- The content lines of a formatted docstring: the first line of the raw
text unchanged, every later line prefixed by four spaces unless its
`strip()` is empty. -/
def pyDocLines (d : PyStr) : List PyStr :=
  match splitLines d with
  | [] => []
  | a :: t =>
      a :: t.map fun l =>
        if (pyStrip l).isEmpty then l else List.replicate 4 ' ' ++ l

/-- The indentation property claimed of an inserted documentation
statement, stated from the claim's words for refutation: every non-first
line (delimiter lines included) starts with exactly four spaces unless it
is empty. -/
def claimedIndentationInvariant (s : PyStr) : Bool :=
  ((splitLines s).drop 1).all fun l =>
    l.isEmpty || (l.takeWhile (fun c => c = ' ')).length == 4

/-- A generator that fails exactly on class declarations (their printed
source opens with `class`) and succeeds on everything else. -/
def c1Transformer : DocTransformer :=
  { generate := fun source _ =>
      if pyStartswith source (pystr "class") then .error (pystr "boom")
      else .ok (pystr "generated doc")
    parser := fun r => .ok r
    overwrite := true }

/-- The undocumented method nested in `c1Module`'s class. -/
def c1Method : Node := .functionDef (pystr "m") [.otherStmt 0]

/-- A module with an (undocumented) class containing one method, followed
by a sibling top-level function. -/
def c1Module : List Node :=
  [.classDef (pystr "C") [c1Method], .functionDef (pystr "g") [.otherStmt 1]]

/-- The documentation statement the successful pipeline of `c1Transformer`
(and `c5Transformer`) inserts. -/
def generatedDocStmt : Node :=
  .simple [.expr (.simpleString (pystr "\"\"\"\ngenerated doc\n\"\"\""))]

/-- The method of `c1Module` after its successful rewrite. -/
def c1RewrittenMethod : Node :=
  .functionDef (pystr "m") [generatedDocStmt, .otherStmt 0]

/-- The sibling function of `c1Module` after its successful rewrite. -/
def c1RewrittenG : Node :=
  .functionDef (pystr "g") [generatedDocStmt, .otherStmt 1]

/-- Insertion target with no leading documentation statement but a bare
string-literal statement later in the body (two statements). -/
def c2NodeA : Node :=
  .functionDef (pystr "f")
    [.simple [.otherSmall 0], .simple [.expr (.simpleString (pystr "\"x\""))]]

/-- Overwrite target with a leading documentation statement and a second,
non-leading string-literal statement (three statements). -/
def c2NodeB : Node :=
  .functionDef (pystr "g")
    [.simple [.expr (.simpleString (pystr "\"d\""))],
     .simple [.expr (.simpleString (pystr "\"y\""))],
     .otherStmt 7]

/-- A declaration whose first statement is not a documentation statement
but whose second is a string-literal expression-statement. -/
def c3Node : Node :=
  .functionDef (pystr "f")
    [.otherStmt 0, .simple [.expr (.simpleString (pystr "\"d\""))]]

/-- An always-succeeding generator with overwrite disabled. -/
def c5Transformer : DocTransformer :=
  { generate := fun _ _ => .ok (pystr "generated doc")
    parser := fun r => .ok r
    overwrite := false }

/-- The class docstring of `c5Class`. -/
def c5DocStmt : Node := .simple [.expr (.simpleString (pystr "\"\"\"k\"\"\""))]

/-- A documented class containing an undocumented method. -/
def c5Class : Node :=
  .classDef (pystr "K") [c5DocStmt, .functionDef (pystr "m") [.otherStmt 0]]

/-- The method docstring of `c5AllDocClass`. -/
def c5MethodDocStmt : Node :=
  .simple [.expr (.simpleString (pystr "\"\"\"m\"\"\""))]

/-- A documented class whose nested method is documented too — a
documented-closed subtree. -/
def c5AllDocClass : Node :=
  .classDef (pystr "K")
    [c5DocStmt, .functionDef (pystr "m") [c5MethodDocStmt, .otherStmt 0]]

/-- A declaration with no leading documentation statement whose body
contains a later triple-single-quoted bare string. -/
def c7Node : Node :=
  .functionDef (pystr "f")
    [.otherStmt 0,
     .simple [.expr (.simpleString (tripleSingle ++ pystr "x" ++ tripleSingle))]]

/-- An empty-bodied declaration used as insertion target. -/
def c8Node : Node := .functionDef (pystr "f") []

/-- A generator that echoes the `additional_context` it was passed (or
`NOCTX` when none), making the walker's class context observable in the
rewritten tree. -/
def c9Transformer : DocTransformer :=
  { generate := fun _ context => .ok (context.getD (pystr "NOCTX"))
    parser := fun r => .ok r
    overwrite := true }

/-- A module with an empty class followed by a top-level function. -/
def c9Module : List Node :=
  [.classDef (pystr "A") [], .functionDef (pystr "f") [.otherStmt 0]]

/-- The documentation statement `c9Transformer` inserts when the walker
passes context `Class: A`. -/
def contextDocStmt : Node :=
  .simple [.expr (.simpleString (pystr "\"\"\"\nClass: A\n\"\"\""))]

/-- Leaf statements (no visitor) pass through `transformNode` unchanged. -/
theorem transformNode_leaf (t : DocTransformer) (st : WalkState) (n : Node)
    (h : isLeafStmt n = true) : transformNode t st n = (n, st) := by
  cases n with
  | simple ss => rfl
  | otherStmt tag => rfl
  | functionDef name body => simp [isLeafStmt] at h
  | classDef name body => simp [isLeafStmt] at h

/-- A statement list of leaf statements passes through `transformList`
unchanged, with the state untouched. -/
theorem transformList_leaf (t : DocTransformer) :
    ∀ (ns : List Node) (st : WalkState), (∀ n ∈ ns, isLeafStmt n = true) →
      transformList t st ns = (ns, st) := by
  intro ns
  induction ns with
  | nil => intro st _; rfl
  | cons n ns ih =>
      intro st h
      have hn := h n (List.mem_cons_self n ns)
      have hns : ∀ m ∈ ns, isLeafStmt m = true :=
        fun m hm => h m (List.mem_cons_of_mem n hm)
      simp only [transformList, transformNode_leaf t st n hn, ih st hns]

/-- `withBody` on a declaration installs exactly the given statement
list. -/
theorem bodyList_withBody (n : Node) (b : List Node) (h : n.isDecl = true) :
    (n.withBody b).bodyList = b := by
  cases n with
  | functionDef name body => rfl
  | classDef name body => rfl
  | simple ss => simp [Node.isDecl] at h
  | otherStmt tag => simp [Node.isDecl] at h

/-- A body without docstring-statements is untouched by the overwrite
filter. -/
theorem filter_no_docstring_eq_self (l : List Node)
    (h : ∀ s ∈ l, is_docstring_stmt s = false) :
    l.filter (fun stmt => !is_docstring_stmt stmt) = l :=
  List.filter_eq_self.mpr fun a ha => by simp [h a ha]

/-- A body without docstring-statements makes `_node_has_docstring`
false. -/
theorem node_has_docstring_eq_false (n : Node)
    (h : ∀ s ∈ n.bodyList, is_docstring_stmt s = false) :
    node_has_docstring n = false := by
  unfold node_has_docstring
  exact List.any_eq_false.mpr fun x hx => by simp [h x hx]

/-- Unfolding helper for `List.findSome?`. -/
theorem exists_of_findSome_eq_some {α β : Type} (f : α → Option β) :
    ∀ (l : List α) (b : β), l.findSome? f = some b → ∃ a ∈ l, f a = some b := by
  intro l
  induction l with
  | nil => intro b h; simp [List.findSome?] at h
  | cons a as ih =>
      intro b h
      rw [List.findSome?] at h
      cases hfa : f a with
      | some c =>
          rw [hfa] at h
          exact ⟨a, List.mem_cons_self a as, hfa.trans h⟩
      | none =>
          rw [hfa] at h
          obtain ⟨x, hx, hfx⟩ := ih b h
          exact ⟨x, List.mem_cons_of_mem a hx, hfx⟩

/-- When a simple statement line holds no string-literal expression, the
quote-style scan finds nothing in it. -/
theorem findSome_quote_none (ss : List SmallStmt)
    (h : is_docstring_stmt (.simple ss) = false) :
    ss.findSome? quoteStyleOfSmall = none := by
  rw [is_docstring_stmt, List.any_eq_false] at h
  induction ss with
  | nil => rfl
  | cons a t ih =>
      have ha := h a (List.mem_cons_self a t)
      have ht := fun x hx => h x (List.mem_cons_of_mem a hx)
      rw [List.findSome?]
      cases a with
      | expr v =>
          cases v with
          | simpleString s => simp at ha
          | otherExpr tag => simpa [quoteStyleOfSmall] using ih ht
      | otherSmall tag => simpa [quoteStyleOfSmall] using ih ht

/-- A string opening with the triple-single delimiter does not open with
the triple-double delimiter. -/
theorem not_dquote_of_squote (v : PyStr)
    (h : pyStartswith v tripleSingle = true) :
    pyStartswith v tripleDouble = false := by
  rw [pyStartswith, List.isPrefixOf_iff_prefix] at h
  obtain ⟨t1, hv⟩ := h
  rw [pyStartswith]
  by_contra hcon
  rw [Bool.not_eq_false, List.isPrefixOf_iff_prefix] at hcon
  obtain ⟨t2, hv2⟩ := hcon
  rw [← hv] at hv2
  simp [tripleDouble, tripleSingle] at hv2

/-- A list starts with any prefix of itself. -/
theorem pyStartswith_append (p r : PyStr) : pyStartswith (p ++ r) p = true := by
  rw [pyStartswith, List.isPrefixOf_iff_prefix]
  exact List.prefix_append p r

/-- A statement list without docstring-statements yields nothing to the
quote-style scan. -/
theorem findSome_scan_none (l : List Node)
    (h : ∀ s ∈ l, is_docstring_stmt s = false) :
    l.findSome? (fun stmt =>
      match stmt with
      | Node.simple ss => ss.findSome? quoteStyleOfSmall
      | _ => none) = none := by
  induction l with
  | nil => rfl
  | cons a t ih =>
      have ha := h a (List.mem_cons_self a t)
      have ht := fun x hx => h x (List.mem_cons_of_mem a hx)
      rw [List.findSome?]
      cases a with
      | simple ss => simp only [findSome_quote_none ss ha]; exact ih ht
      | functionDef name body => exact ih ht
      | classDef name body => exact ih ht
      | otherStmt tag => exact ih ht

/-- With no string-literal expression-statement anywhere in the body, the
quote-style scan returns the triple-double default. -/
theorem match_existing_default (n : Node)
    (h : ∀ s ∈ n.bodyList, is_docstring_stmt s = false) :
    match_existing_quotes_style n = tripleDouble := by
  rw [match_existing_quotes_style, findSome_scan_none n.bodyList h]

/-- When the body's first statement is a string-literal
expression-statement opening with the triple-single delimiter, the
quote-style scan returns that delimiter. -/
theorem match_existing_squote (n : Node) (v : PyStr) (rest : List Node)
    (hb : n.bodyList = Node.simple [.expr (.simpleString v)] :: rest)
    (hv : pyStartswith v tripleSingle = true) :
    match_existing_quotes_style n = tripleSingle := by
  rw [match_existing_quotes_style, hb, List.findSome?]
  simp only [List.findSome?, quoteStyleOfSmall, not_dquote_of_squote v hv, hv]
  rfl

/-- The quote-style scan only ever returns one of the two triple
delimiters. -/
theorem match_existing_mem (n : Node) :
    match_existing_quotes_style n = tripleDouble
      ∨ match_existing_quotes_style n = tripleSingle := by
  rw [match_existing_quotes_style]
  cases hf : n.bodyList.findSome? (fun stmt =>
      match stmt with
      | Node.simple ss => ss.findSome? quoteStyleOfSmall
      | _ => none) with
  | none => exact Or.inl rfl
  | some q =>
      obtain ⟨a, _, hfa⟩ := exists_of_findSome_eq_some _ _ _ hf
      cases a with
      | simple ss =>
          obtain ⟨small, _, hsmall⟩ := exists_of_findSome_eq_some _ _ _ hfa
          cases small with
          | expr v =>
              cases v with
              | simpleString s =>
                  rw [quoteStyleOfSmall] at hsmall
                  by_cases hd : pyStartswith s tripleDouble = true
                  · rw [if_pos hd] at hsmall
                    exact Or.inl (Option.some_injective _ hsmall).symm
                  · rw [if_neg hd] at hsmall
                    by_cases hs : pyStartswith s tripleSingle = true
                    · rw [if_pos hs] at hsmall
                      exact Or.inr (Option.some_injective _ hsmall).symm
                    · rw [if_neg hs] at hsmall
                      exact absurd hsmall (by simp)
              | otherExpr tag => exact absurd hsmall (by simp [quoteStyleOfSmall])
          | otherSmall tag => exact absurd hsmall (by simp [quoteStyleOfSmall])
      | functionDef name body => exact absurd hfa (by simp)
      | classDef name body => exact absurd hfa (by simp)
      | otherStmt tag => exact absurd hfa (by simp)

/-- A line produced by `splitLines` contains no newline. -/
theorem not_nl_mem_of_mem_splitLines :
    ∀ (s : PyStr) (l : PyStr), l ∈ splitLines s → '\n' ∉ l := by
  intro s
  induction s with
  | nil => intro l hl; simp [splitLines] at hl
  | cons c cs ih =>
      intro l hl
      by_cases hc : c = '\n'
      · subst hc
        rw [splitLines, if_pos rfl] at hl
        rcases List.mem_cons.mp hl with h0 | h0
        · subst h0; simp
        · exact ih l h0
      · rw [splitLines, if_neg hc] at hl
        cases hsplit : splitLines cs with
        | nil =>
            rw [hsplit] at hl
            simp only [List.mem_singleton] at hl
            subst hl
            simp [hc, Ne.symm hc]
        | cons l0 ls =>
            rw [hsplit] at hl
            rcases List.mem_cons.mp hl with h0 | h0
            · subst h0
              intro hmem
              rcases List.mem_cons.mp hmem with h1 | h1
              · exact hc h1.symm
              · exact ih l0 (hsplit ▸ List.mem_cons_self l0 ls) h1
            · exact ih l (hsplit ▸ List.mem_cons_of_mem l0 h0)

/-- Splitting a newline-free line glued to a newline and a remainder peels
off exactly that line. -/
theorem splitLines_append_newline :
    ∀ (l rest : PyStr), '\n' ∉ l →
      splitLines (l ++ '\n' :: rest) = l :: splitLines rest := by
  intro l
  induction l with
  | nil => intro rest _; simp [splitLines]
  | cons c cs ih =>
      intro rest h
      have hc : ¬ c = '\n' := fun hcc => h (hcc ▸ List.mem_cons_self c cs)
      have hcs : '\n' ∉ cs := fun hm => h (List.mem_cons_of_mem c hm)
      rw [List.cons_append, splitLines, if_neg hc, ih rest hcs]

/-- A nonempty newline-free string is a single line. -/
theorem splitLines_single (l : PyStr) (h : '\n' ∉ l) (hne : l ≠ []) :
    splitLines l = [l] := by
  induction l with
  | nil => exact absurd rfl hne
  | cons c cs ih =>
      have hc : ¬ c = '\n' := fun hcc => h (hcc ▸ List.mem_cons_self c cs)
      have hcs : '\n' ∉ cs := fun hm => h (List.mem_cons_of_mem c hm)
      rw [splitLines, if_neg hc]
      cases hcase : cs with
      | nil => simp [splitLines]
      | cons d ds => rw [← hcase, ih hcs (by simp [hcase])]

/-- Splitting never loses the material after a join: joining nonempty,
newline-free lines and appending a newline and a remainder splits back into
those lines followed by the remainder's lines. -/
theorem splitLines_joinNL_append :
    ∀ (ls : List PyStr) (rest : PyStr), ls ≠ [] → (∀ l ∈ ls, '\n' ∉ l) →
      splitLines (joinNL ls ++ '\n' :: rest) = ls ++ splitLines rest := by
  intro ls
  induction ls with
  | nil => intro rest hne _; exact absurd rfl hne
  | cons l ls' ih =>
      intro rest _ h
      have hl := h l (List.mem_cons_self l ls')
      have hls' := fun x hx => h x (List.mem_cons_of_mem l hx)
      cases hcase : ls' with
      | nil => rw [joinNL, splitLines_append_newline l rest hl]; rfl
      | cons m ms =>
          rw [← hcase]
          have hjoin : joinNL (l :: ls') = l ++ '\n' :: joinNL ls' := by
            rw [hcase]; rfl
          rw [hjoin, List.append_assoc, List.cons_append,
            splitLines_append_newline l _ hl,
            ih rest (by simp [hcase]) hls']
          rfl

/-- `splitLines` of a nonempty string is nonempty. -/
theorem splitLines_ne_nil (s : PyStr) (h : s ≠ []) : splitLines s ≠ [] := by
  cases s with
  | nil => exact absurd rfl h
  | cons c cs =>
      rw [splitLines]
      by_cases hc : c = '\n'
      · rw [if_pos hc]; simp
      · rw [if_neg hc]
        cases splitLines cs with
        | nil => simp
        | cons l0 ls => simp

/-- Past the first position, the `indent_text` loop indents every
non-blank line. -/
theorem indentLinesFrom_succ (indent : PyStr) :
    ∀ (ls : List PyStr) (i : Nat),
      indentLinesFrom indent true (i + 1) ls
        = ls.map fun l => if (pyStrip l).isEmpty then l else indent ++ l := by
  intro ls
  induction ls with
  | nil => intro i; rfl
  | cons l t ih =>
      intro i
      rw [indentLinesFrom, List.map_cons, ih (i + 1)]
      simp

/-- The `indent_text` loop at position zero computes `pyDocLines`. -/
theorem indentLinesFrom_zero (d : PyStr) :
    indentLinesFrom (List.replicate 4 ' ') true 0 (splitLines d)
      = pyDocLines d := by
  rw [pyDocLines]
  cases hcase : splitLines d with
  | nil => rfl
  | cons a t => rw [indentLinesFrom, indentLinesFrom_succ]; rfl

/-- On a failing generation-parsing pipeline, `_process_node` records
`failed` and returns the original node. -/
theorem processNode_failure (t : DocTransformer) (st : WalkState)
    (originalNode updatedNode : Node) (e : PyStr)
    (hneeds : needs_docstring t.overwrite updatedNode = true)
    (herr : generate_docstring t st.currentClass updatedNode >>= t.parser
      = .error e) :
    processNode t st originalNode updatedNode
      = (originalNode, trackObject st updatedNode .failed) := by
  rw [processNode, if_pos hneeds, herr]

/-- With overwrite disabled, `_process_node` leaves a documented node
untouched and records `processed`. -/
theorem processNode_documented (t : DocTransformer) (st : WalkState)
    (originalNode updatedNode : Node)
    (how : t.overwrite = false)
    (hdoc : node_has_docstring updatedNode = true) :
    processNode t st originalNode updatedNode
      = (updatedNode, trackObject st updatedNode .processed) := by
  rw [processNode, needs_docstring, hdoc, how, if_neg (by decide)]

mutual

/-- With overwrite disabled, the walk is the identity on the tree part of
every documented-closed subtree: every nested declaration is skipped at its
exit, so the node comes back unchanged. -/
theorem transformNode_allDocumented (t : DocTransformer)
    (how : t.overwrite = false) :
    ∀ (st : WalkState) (n : Node), allDocumented n = true →
      (transformNode t st n).1 = n
  | _, .simple _, _ => rfl
  | _, .otherStmt _, _ => rfl
  | st, .functionDef name body, h => by
      rw [allDocumented, Bool.and_eq_true] at h
      have hbody := transformList_allDocumented t how
        (trackObject st (.functionDef name body) .pending) body h.2
      rw [transformNode, hbody]
      rw [processNode_documented t _ _ _ how h.1]
  | st, .classDef name body, h => by
      rw [allDocumented, Bool.and_eq_true] at h
      have hbody := transformList_allDocumented t how
        (trackObject { st with currentClass := some name }
          (.classDef name body) .pending) body h.2
      rw [transformNode, hbody]
      rw [processNode_documented t _ _ _ how h.1]

/-- With overwrite disabled, the walk is the identity on the tree part of a
statement list whose subtrees are all documented-closed. -/
theorem transformList_allDocumented (t : DocTransformer)
    (how : t.overwrite = false) :
    ∀ (st : WalkState) (ns : List Node), allDocumentedList ns = true →
      (transformList t st ns).1 = ns
  | _, [], _ => rfl
  | st, n :: ns, h => by
      rw [allDocumentedList, Bool.and_eq_true] at h
      have h1 := transformNode_allDocumented t how st n h.1
      have h2 := transformList_allDocumented t how
        (transformNode t st n).2 ns h.2
      rw [transformList, h1, h2]

end

/-- C1, counterexample: with a generator that fails exactly on class
sources, the walk over `class C: def m(): ...; def g(): ...` rewrites the
nested method `m` (a `processed` entry with the rewritten method is
recorded) and records `failed` for the class, yet the output tree holds the
original class with the original, unrewritten `m` — so a nested declaration
that succeeded does not keep its rewrite when its enclosing declaration
fails, refuting the claim as stated. -/
theorem C1_counterexample :
    (transformModule c1Transformer c1Module).1
      = [.classDef (pystr "C") [c1Method], c1RewrittenG]
    ∧ (c1RewrittenMethod, TrackState.processed)
        ∈ (transformModule c1Transformer c1Module).2.log
    ∧ c1RewrittenMethod ≠ c1Method
    ∧ (Node.classDef (pystr "C") [c1RewrittenMethod], TrackState.failed)
        ∈ (transformModule c1Transformer c1Module).2.log := by
  decide

/-- C1 (amended): whenever generation or parsing fails for one Function or
Type declaration, `_process_node` records a `failed` entry for that
declaration and returns the original node — reverting the whole subtree,
including rewrites of declarations nested inside it; and the walk continues
over the remaining statements, each sibling's result depending only on its
own node and the threaded state. -/
theorem C1_failureIsolation :
    (∀ (t : DocTransformer) (st : WalkState) (originalNode updatedNode : Node)
        (e : PyStr),
      needs_docstring t.overwrite updatedNode = true →
      generate_docstring t st.currentClass updatedNode >>= t.parser = .error e →
      processNode t st originalNode updatedNode
        = (originalNode, trackObject st updatedNode .failed))
    ∧ (∀ (t : DocTransformer) (st : WalkState) (n : Node) (ns : List Node),
      transformList t st (n :: ns)
        = ((transformNode t st n).1
            :: (transformList t (transformNode t st n).2 ns).1,
           (transformList t (transformNode t st n).2 ns).2)) := by
  constructor
  · intro t st originalNode updatedNode e hneeds herr
    exact processNode_failure t st originalNode updatedNode e hneeds herr
  · intro t st n ns
    rfl

/-- C1, witness: the failing class of `c1Module` concretely reverts to its
original node and is recorded `failed`. -/
theorem C1_failureIsolation_witness :
    processNode c1Transformer ⟨some (pystr "C"), []⟩
        (Node.classDef (pystr "C") [c1Method])
        (Node.classDef (pystr "C") [c1RewrittenMethod])
      = (Node.classDef (pystr "C") [c1Method],
         trackObject ⟨some (pystr "C"), []⟩
           (Node.classDef (pystr "C") [c1RewrittenMethod]) .failed) :=
  C1_failureIsolation.1 c1Transformer ⟨some (pystr "C"), []⟩
    (Node.classDef (pystr "C") [c1Method])
    (Node.classDef (pystr "C") [c1RewrittenMethod])
    (pystr "boom") (by decide) (by rfl)

/-- C2, counterexample: the overwrite filter removes every string-literal
expression-statement, not only the leading one.  Inserting into a
2-statement body whose second statement is a bare string yields 2
statements, not 3; overwriting a 3-statement body with a leading docstring
and a later bare string yields 2 statements, not 3, and the later bare
string is gone. -/
theorem C2_counterexample :
    c2NodeA.bodyList.length = 2
    ∧ (insert_docstring true c2NodeA (pystr "doc")).bodyList.length = 2
    ∧ c2NodeB.bodyList.length = 3
    ∧ c2NodeB.bodyList.head?
        = some (Node.simple [.expr (.simpleString (pystr "\"d\""))])
    ∧ is_docstring_stmt (Node.simple [.expr (.simpleString (pystr "\"d\""))]) = true
    ∧ (insert_docstring true c2NodeB (pystr "doc")).bodyList.length = 2
    ∧ (Node.simple [.expr (.simpleString (pystr "\"y\""))]) ∈ c2NodeB.bodyList
    ∧ (Node.simple [.expr (.simpleString (pystr "\"y\""))])
        ∉ (insert_docstring true c2NodeB (pystr "doc")).bodyList := by
  decide

/-- C2 (amended): for a declaration whose body contains no string-literal
expression-statement, insertion yields `N+1` statements with the new
documentation statement first and the original `N` following in order; when
overwriting, every string-literal expression-statement of the body is
removed (not only the leading one), so if the leading documentation
statement is the only such statement the result has exactly `N` statements:
the new documentation statement first, then the other original statements
in order. -/
theorem C2_rewriteBodyShape :
    ∀ (overwrite : Bool) (node : Node) (docstring : PyStr),
      node.isDecl = true →
      ((∀ s ∈ node.bodyList, is_docstring_stmt s = false) →
        (insert_docstring overwrite node docstring).bodyList
          = Node.simple
              [.expr (.simpleString (format_docstring overwrite docstring node))]
              :: node.bodyList)
      ∧ (∀ hd rest, node.bodyList = hd :: rest →
          is_docstring_stmt hd = true →
          (∀ s ∈ rest, is_docstring_stmt s = false) →
          (insert_docstring true node docstring).bodyList
            = Node.simple
                [.expr (.simpleString (format_docstring true docstring node))]
                :: rest) := by
  intro ow node d hdecl
  constructor
  · intro hnone
    have hnd := node_has_docstring_eq_false node hnone
    cases ow with
    | false => simp [insert_docstring, hnd, bodyList_withBody _ _ hdecl]
    | true =>
        simp [insert_docstring, hnd, bodyList_withBody _ _ hdecl,
          filter_no_docstring_eq_self _ hnone]
  · intro hd rest hb hhd hrest
    have hfilter : node.bodyList.filter (fun stmt => !is_docstring_stmt stmt)
        = rest := by
      rw [hb, List.filter_cons]
      simp [hhd, filter_no_docstring_eq_self _ hrest]
    simp [insert_docstring, hfilter, bodyList_withBody _ _ hdecl]

/-- C2, witness: concrete instances of both parts — insertion into a
string-free 1-statement body gives 2 statements in order, overwriting a
body whose only string statement is the leading docstring keeps the
count. -/
theorem C2_rewriteBodyShape_witness :
    ((insert_docstring true (Node.functionDef (pystr "h") [.otherStmt 4])
        (pystr "doc")).bodyList
      = Node.simple
          [.expr (.simpleString (format_docstring true (pystr "doc")
            (Node.functionDef (pystr "h") [.otherStmt 4])))]
          :: [.otherStmt 4])
    ∧ ((insert_docstring true
          (Node.functionDef (pystr "k") [c5DocStmt, .otherStmt 5])
          (pystr "doc")).bodyList
      = Node.simple
          [.expr (.simpleString (format_docstring true (pystr "doc")
            (Node.functionDef (pystr "k") [c5DocStmt, .otherStmt 5])))]
          :: [.otherStmt 5]) :=
  ⟨(C2_rewriteBodyShape true (Node.functionDef (pystr "h") [.otherStmt 4])
      (pystr "doc") (by decide)).1 (by decide),
   (C2_rewriteBodyShape true (Node.functionDef (pystr "k") [c5DocStmt, .otherStmt 5])
      (pystr "doc") (by decide)).2 c5DocStmt [.otherStmt 5] rfl (by decide)
      (by decide)⟩

/-- C3, counterexample: a declaration whose first statement is not an
expression-statement wrapping a string literal, but whose second statement
is, still counts as documented — the test is not "first statement only". -/
theorem C3_counterexample :
    c3Node.bodyList.head? = some (Node.otherStmt 0)
    ∧ is_docstring_stmt (Node.otherStmt 0) = false
    ∧ node_has_docstring c3Node = true := by
  decide

/-- C3 (amended): the walker's "has documentation" test is true exactly
when SOME statement of the declaration's body (not necessarily the first)
is a simple statement line containing an expression wrapping a string
literal. -/
theorem C3_docTestIsAnyStatement (n : Node) :
    node_has_docstring n = true ↔ ∃ s ∈ n.bodyList, is_docstring_stmt s = true := by
  rw [node_has_docstring]
  exact List.any_eq_true

/-- C5, counterexample: a documented class containing an undocumented
method is not left byte-identical by a walk with overwrite disabled — the
nested method is rewritten, so the class subtree changes. -/
theorem C5_counterexample :
    c5Transformer.overwrite = false
    ∧ node_has_docstring c5Class = true
    ∧ (transformNode c5Transformer initialWalkState c5Class).1 ≠ c5Class := by
  decide

/-- C5 (amended): with overwrite disabled, a declaration that already has a
documentation statement is itself left unmodified at its exit and recorded
`processed` (first conjunct, for every walk state and node); and whenever
every declaration nested inside its subtree is documented too, the walk
returns the whole subtree unchanged — hence byte-identical when printed
(second conjunct).  An undocumented nested declaration is still rewritten,
per the counterexample. -/
theorem C5_overwriteDisabledKeepsDocumented :
    (∀ (t : DocTransformer) (st : WalkState) (originalNode updatedNode : Node),
      t.overwrite = false →
      node_has_docstring updatedNode = true →
      processNode t st originalNode updatedNode
        = (updatedNode, trackObject st updatedNode .processed))
    ∧ (∀ (t : DocTransformer) (st : WalkState) (n : Node),
      t.overwrite = false →
      allDocumented n = true →
      (transformNode t st n).1 = n
      ∧ codeForNode (transformNode t st n).1 = codeForNode n) := by
  constructor
  · intro t st originalNode updatedNode how hdoc
    exact processNode_documented t st originalNode updatedNode how hdoc
  · intro t st n how hall
    have h := transformNode_allDocumented t how st n hall
    exact ⟨h, congrArg codeForNode h⟩

/-- C5, witness: the documented class `c5Class` is itself returned
unmodified and recorded `processed` at its exit, and the documented-closed
class `c5AllDocClass` (a documented class with a documented nested method)
comes back from the whole walk unchanged. -/
theorem C5_overwriteDisabledKeepsDocumented_witness :
    (processNode c5Transformer initialWalkState c5Class c5Class
      = (c5Class, trackObject initialWalkState c5Class .processed))
    ∧ ((transformNode c5Transformer initialWalkState c5AllDocClass).1
        = c5AllDocClass
      ∧ codeForNode (transformNode c5Transformer initialWalkState c5AllDocClass).1
          = codeForNode c5AllDocClass) :=
  ⟨C5_overwriteDisabledKeepsDocumented.1 c5Transformer initialWalkState
      c5Class c5Class rfl (by decide),
   C5_overwriteDisabledKeepsDocumented.2 c5Transformer initialWalkState
      c5AllDocClass rfl (by decide)⟩

/-- C9 (code bug): `visit_ClassDef` sets `self.current_class` and nothing
ever restores it, so after the walker leaves class `A`'s subtree the
top-level function `f` is still generated with context `Class: A` — the
echoing generator makes the stale context visible in `f`'s docstring, and
the walk ends with `current_class` still set to `A`. -/
theorem C9_contextNotRestored :
    (transformModule c9Transformer c9Module).1
      = [.classDef (pystr "A") [contextDocStmt],
         .functionDef (pystr "f") [contextDocStmt, .otherStmt 0]]
    ∧ (transformModule c9Transformer c9Module).2.currentClass
        = some (pystr "A") := by
  decide

/-- C10 (confirmed): `DocAutoGenerator.generate` raises `TypeError` for a
non-string source and `ValueError` for an empty-string source, in both
cases before any prompt is built and before any provider call is made (the
prompt log and the provider-call log are empty). -/
theorem C10_inputValidation :
    ∀ (maxContext : Int) (promptLengthLimit : Nat) (constraints : List PyStr)
      (estimate : PyStr → Nat) (provider : PyStr → PyStr → Int → PyStr)
      (context : Option PyStr) (typeRepr : PyStr),
      docauto_generate maxContext promptLengthLimit constraints estimate provider
          (.nonString typeRepr) context
        = (.error (.typeError
            (pystr "source parameter can only of type string, received "
              ++ typeRepr)), [], [])
      ∧ docauto_generate maxContext promptLengthLimit constraints estimate provider
          (.str []) context
        = (.error (.valueError (pystr "source parameter cannot be empty")),
           [], []) := by
  intro maxContext promptLengthLimit constraints estimate provider context typeRepr
  exact ⟨rfl, rfl⟩

/-- C4 (confirmed): the token-budget check computes
`tokens = estimate(systemText + "\n" + userText + "\n")` and fails exactly
when `tokens > maxContext - min_response_context` (reserve 5000); a
rejected request makes zero provider calls, and an accepted request passes
`maxContext - tokens` to the single provider call as the response token
ceiling. -/
theorem C4_tokenBudget :
    ∀ (maxContext : Int) (estimate : PyStr → Nat)
      (provider : PyStr → PyStr → Int → PyStr) (systemText userText : PyStr),
      ((∃ msg, (docauto_generate_documentation maxContext min_response_context
            estimate provider systemText userText).1 = .error msg)
        ↔ ((estimate (systemText ++ '\n' :: (userText ++ ['\n'])) : Int)
            > maxContext - min_response_context))
      ∧ (((estimate (systemText ++ '\n' :: (userText ++ ['\n'])) : Int)
            > maxContext - min_response_context) →
          (docauto_generate_documentation maxContext min_response_context
            estimate provider systemText userText).2 = [])
      ∧ (¬ ((estimate (systemText ++ '\n' :: (userText ++ ['\n'])) : Int)
            > maxContext - min_response_context) →
          (docauto_generate_documentation maxContext min_response_context
            estimate provider systemText userText).2
            = [⟨systemText, userText,
                maxContext
                  - (estimate (systemText ++ '\n' :: (userText ++ ['\n'])) : Int)⟩]) := by
  intro maxContext estimate provider systemText userText
  by_cases hgt : ((estimate (systemText ++ '\n' :: (userText ++ ['\n'])) : Int)
      > maxContext - min_response_context)
  · refine ⟨⟨fun _ => hgt, fun _ => ⟨pystr "Prompt exceeds max_context limit.", ?_⟩⟩,
      fun _ => ?_, fun hn => absurd hgt hn⟩
    · simp only [docauto_generate_documentation, if_pos hgt]
    · simp only [docauto_generate_documentation, if_pos hgt]
  · refine ⟨⟨fun hmsg => ?_, fun hh => absurd hh hgt⟩,
      fun hh => absurd hh hgt, fun _ => ?_⟩
    · obtain ⟨msg, hmsg⟩ := hmsg
      simp only [docauto_generate_documentation, if_neg hgt] at hmsg
      exact Except.noConfusion hmsg
    · simp only [docauto_generate_documentation, if_neg hgt]

/-- C4, witness: a concrete accepted request (10 tokens against a 16384
context) makes exactly one provider call with ceiling `16384 - 10`, and the
rejection equivalence holds at that input. -/
theorem C4_tokenBudget_witness :
    ((∃ msg, (docauto_generate_documentation 16384 min_response_context
          (fun s => s.length) (fun _ _ _ => pystr "ok")
          (pystr "sys") (pystr "user")).1 = .error msg)
      ↔ (((fun (s : PyStr) => s.length) (pystr "sys" ++ '\n' :: (pystr "user" ++ ['\n'])) : Int)
          > 16384 - min_response_context))
    ∧ ((((fun (s : PyStr) => s.length) (pystr "sys" ++ '\n' :: (pystr "user" ++ ['\n'])) : Int)
          > 16384 - min_response_context) →
        (docauto_generate_documentation 16384 min_response_context
          (fun s => s.length) (fun _ _ _ => pystr "ok")
          (pystr "sys") (pystr "user")).2 = [])
    ∧ (¬ (((fun (s : PyStr) => s.length) (pystr "sys" ++ '\n' :: (pystr "user" ++ ['\n'])) : Int)
          > 16384 - min_response_context) →
        (docauto_generate_documentation 16384 min_response_context
          (fun s => s.length) (fun _ _ _ => pystr "ok")
          (pystr "sys") (pystr "user")).2
          = [⟨pystr "sys", pystr "user",
              16384 - (((fun (s : PyStr) => s.length)
                (pystr "sys" ++ '\n' :: (pystr "user" ++ ['\n']))) : Int)⟩]) :=
  C4_tokenBudget 16384 (fun s => s.length) (fun _ _ _ => pystr "ok")
    (pystr "sys") (pystr "user")

/-- C6 (confirmed): a policy-tagged fail-silent sanitizer step whose
function raises outputs its unmodified input and the chain proceeds to the
next step; a step that is not fail-silent (a dict step with `fail_silent`
absent or false, or a bare callable) whose function raises makes chain
application fail with an error carrying the underlying cause. -/
theorem C6_sanitizerPolicy :
    ∀ (step : LLMResponseSanitizer) (text : PyStr) (e : PyExc)
      (rest : List LLMResponseSanitizer),
      (isFailSilent step = true → stepFn step text = .error e →
        call_sanitizer step text = .ok text
        ∧ apply_sanitizers (step :: rest) text = apply_sanitizers rest text)
      ∧ (isFailSilent step = false → stepFn step text = .error e →
        ∃ e2, apply_sanitizers (step :: rest) text = .error e2
          ∧ carriesCause e2 e) := by
  intro step text e rest
  cases step with
  | callable f =>
      constructor
      · intro hfs _
        simp [isFailSilent] at hfs
      · intro _ herr
        have hcall : call_sanitizer (.callable f) text = .error e := herr
        refine ⟨e, ?_, Or.inl rfl⟩
        rw [apply_sanitizers, hcall]
  | dict f failSilentKey =>
      constructor
      · intro hfs herr
        have hcall : call_sanitizer (.dict f failSilentKey) text = .ok text := by
          rw [call_sanitizer]
          rw [show f text = .error e from herr]
          rw [show failSilentKey.getD false = true from hfs]
          simp
        exact ⟨hcall, by rw [apply_sanitizers, hcall]⟩
      · intro hfs herr
        have hcall : call_sanitizer (.dict f failSilentKey) text
            = .error (.mk (pystr "Sanitizer failed: " ++ e.message) (some e)) := by
          rw [call_sanitizer]
          rw [show f text = .error e from herr]
          rw [show failSilentKey.getD false = false from hfs]
          simp
        refine ⟨.mk (pystr "Sanitizer failed: " ++ e.message) (some e), ?_, Or.inr rfl⟩
        rw [apply_sanitizers, hcall]

/-- C6, witness: a concretely failing function behind a fail-silent dict
step passes its input through and the chain proceeds; behind a
non-fail-silent dict step the chain fails with a `Sanitizer failed` error
whose cause is the underlying exception. -/
theorem C6_sanitizerPolicy_witness :
    (call_sanitizer (.dict (fun _ => .error (.mk (pystr "boom") none)) (some true))
        (pystr "t") = .ok (pystr "t")
      ∧ apply_sanitizers
          [.dict (fun _ => .error (.mk (pystr "boom") none)) (some true)]
          (pystr "t")
        = apply_sanitizers [] (pystr "t"))
    ∧ (∃ e2, apply_sanitizers
          [.dict (fun _ => .error (.mk (pystr "boom") none)) (some false)]
          (pystr "t")
        = .error e2
      ∧ carriesCause e2 (.mk (pystr "boom") none)) :=
  ⟨(C6_sanitizerPolicy
      (.dict (fun _ => .error (.mk (pystr "boom") none)) (some true))
      (pystr "t") (.mk (pystr "boom") none) []).1 rfl rfl,
   (C6_sanitizerPolicy
      (.dict (fun _ => .error (.mk (pystr "boom") none)) (some false))
      (pystr "t") (.mk (pystr "boom") none) []).2 rfl rfl⟩

/-- C7, counterexample: a declaration with NO leading documentation
statement (its first statement is not an expression-statement wrapping a
string literal) but with a later bare triple-single-quoted string gets its
inserted documentation statement opened with `'''`, not the claimed default
`\"\"\"`. -/
theorem C7_counterexample :
    c7Node.bodyList.head? = some (Node.otherStmt 0)
    ∧ is_docstring_stmt (Node.otherStmt 0) = false
    ∧ (insert_docstring true c7Node (pystr "doc")).bodyList.head?
        = some (.simple [.expr (.simpleString
            (tripleSingle ++ '\n' :: (pystr "doc" ++ '\n' :: tripleSingle)))])
    ∧ pyStartswith
        (tripleSingle ++ '\n' :: (pystr "doc" ++ '\n' :: tripleSingle))
        tripleDouble = false := by
  decide

/-- C7 (amended): when the body's first statement is a documentation
statement opening with `'''`, overwriting inserts a replacement that also
opens with `'''`; when the body contains no string-literal
expression-statement at all, the inserted statement opens with the
triple-double default.  (The delimiter is that of the first string literal
found anywhere in the body, so a non-leading triple-single string can also
select `'''`, per the counterexample.) -/
theorem C7_quoteStyle :
    ∀ (node : Node) (v : PyStr) (rest : List Node) (docstring : PyStr),
      node.isDecl = true →
      (node.bodyList = Node.simple [.expr (.simpleString v)] :: rest →
        pyStartswith v tripleSingle = true →
        ∃ s tail, (insert_docstring true node docstring).bodyList
            = Node.simple [.expr (.simpleString s)] :: tail
          ∧ pyStartswith s tripleSingle = true)
      ∧ (∀ overwrite : Bool, (∀ s ∈ node.bodyList, is_docstring_stmt s = false) →
        ∃ s tail, (insert_docstring overwrite node docstring).bodyList
            = Node.simple [.expr (.simpleString s)] :: tail
          ∧ pyStartswith s tripleDouble = true) := by
  intro node v rest d hdecl
  constructor
  · intro hb hv
    refine ⟨format_docstring true d node,
      node.bodyList.filter (fun stmt => !is_docstring_stmt stmt), ?_, ?_⟩
    · rw [insert_docstring]
      simp only [Bool.not_true, Bool.false_and, Bool.false_eq_true, if_false]
      exact bodyList_withBody node _ hdecl
    · rw [format_docstring]
      rw [if_pos rfl]
      rw [match_existing_squote node v rest hb hv]
      exact pyStartswith_append tripleSingle _
  · intro ow hnone
    have hnd := node_has_docstring_eq_false node hnone
    refine ⟨format_docstring ow d node,
      if ow then node.bodyList.filter (fun stmt => !is_docstring_stmt stmt)
      else node.bodyList, ?_, ?_⟩
    · rw [insert_docstring, hnd]
      simp only [Bool.and_false, Bool.false_eq_true, if_false]
      exact bodyList_withBody node _ hdecl
    · rw [format_docstring]
      cases ow with
      | true =>
          rw [if_pos rfl]
          rw [match_existing_default node hnone]
          exact pyStartswith_append tripleDouble _
      | false =>
          rw [if_neg (by decide)]
          exact pyStartswith_append tripleDouble _

/-- C7, witness: a function whose leading docstring opens with `'''` gets a
`'''` replacement, and an undocumented empty-bodied function gets a
`\"\"\"` docstring. -/
theorem C7_quoteStyle_witness :
    (∃ s tail, (insert_docstring true
        (Node.functionDef (pystr "q")
          [.simple [.expr (.simpleString
            (tripleSingle ++ 'x' :: tripleSingle))]])
        (pystr "doc")).bodyList
        = Node.simple [.expr (.simpleString s)] :: tail
      ∧ pyStartswith s tripleSingle = true)
    ∧ (∃ s tail, (insert_docstring true c8Node (pystr "doc")).bodyList
        = Node.simple [.expr (.simpleString s)] :: tail
      ∧ pyStartswith s tripleDouble = true) :=
  ⟨(C7_quoteStyle
      (Node.functionDef (pystr "q")
        [.simple [.expr (.simpleString (tripleSingle ++ 'x' :: tripleSingle))]])
      (tripleSingle ++ 'x' :: tripleSingle) [] (pystr "doc") (by decide)).1
      rfl (by decide),
   (C7_quoteStyle c8Node (pystr "unused") [] (pystr "doc") (by decide)).2
      true (by decide)⟩


/-- C8, counterexample: for the inserted statement built from `a\nb`, the
line holding the first line of the docstring text and the closing-delimiter
line are non-first, non-empty lines that do not start with four spaces —
the claimed invariant fails as stated. -/
theorem C8_counterexample :
    format_docstring true (pystr "a\nb") c8Node = pystr "\"\"\"\na\n    b\n\"\"\""
    ∧ claimedIndentationInvariant
        (format_docstring true (pystr "a\nb") c8Node) = false
    ∧ tripleDouble ∈ (splitLines (format_docstring true (pystr "a\nb") c8Node)).drop 1
    ∧ tripleDouble.isEmpty = false
    ∧ (tripleDouble.takeWhile (fun c => c = ' ')).length = 0 := by
  decide

/-- C8 (amended): the lines of an inserted documentation statement are the
opening delimiter, then the docstring's own lines — the first unchanged,
every later line prefixed with exactly four spaces unless its `strip()` is
empty (whitespace-only lines are kept verbatim) — then the closing
delimiter; consequently every line is a delimiter, an original docstring
line, or a four-space-prefixed original line, so no line gains trailing
whitespace. -/
theorem C8_indentationShape :
    ∀ (overwrite : Bool) (node : Node) (docstring : PyStr),
      docstring ≠ [] →
      (splitLines (format_docstring overwrite docstring node)
          = quoteOf overwrite node
              :: (pyDocLines docstring ++ [quoteOf overwrite node]))
      ∧ (∀ l ∈ splitLines (format_docstring overwrite docstring node),
          l = quoteOf overwrite node
          ∨ l ∈ splitLines docstring
          ∨ ∃ l0 ∈ splitLines docstring, l = List.replicate 4 ' ' ++ l0) := by
  intro ow node d hd
  have hq : quoteOf ow node = tripleDouble ∨ quoteOf ow node = tripleSingle := by
    cases ow with
    | false => exact Or.inl rfl
    | true => exact match_existing_mem node
  have hqnl : '\n' ∉ quoteOf ow node := by
    rcases hq with h | h <;> rw [h] <;> decide
  have hqne : quoteOf ow node ≠ [] := by
    rcases hq with h | h <;> rw [h] <;> decide
  have hlines_nl : ∀ l ∈ pyDocLines d, '\n' ∉ l := by
    intro l hl
    rw [pyDocLines] at hl
    cases hsplit : splitLines d with
    | nil => rw [hsplit] at hl; simp at hl
    | cons a t =>
        rw [hsplit] at hl
        have hmema : a ∈ splitLines d := by
          rw [hsplit]; exact List.mem_cons_self a t
        have hmemt : ∀ x ∈ t, x ∈ splitLines d := fun x hx => by
          rw [hsplit]; exact List.mem_cons_of_mem a hx
        rcases List.mem_cons.mp hl with h0 | h0
        · exact h0 ▸ not_nl_mem_of_mem_splitLines d a hmema
        · obtain ⟨l0, hl0, hmap⟩ := List.mem_map.mp h0
          have hl0' : '\n' ∉ l0 := not_nl_mem_of_mem_splitLines d l0 (hmemt l0 hl0)
          by_cases hblank : (pyStrip l0).isEmpty = true
          · rw [if_pos hblank] at hmap
            exact hmap ▸ hl0'
          · rw [if_neg hblank] at hmap
            rw [← hmap]
            intro hmem
            rcases List.mem_append.mp hmem with hx | hx
            · exact absurd (List.eq_of_mem_replicate hx) (by decide)
            · exact hl0' hx
  have hmid : pyDocLines d ≠ [] := by
    rw [pyDocLines]
    cases hsplit : splitLines d with
    | nil => exact absurd hsplit (splitLines_ne_nil d hd)
    | cons a t => simp
  have hshape : format_docstring ow d node
      = quoteOf ow node
          ++ '\n' :: (joinNL (pyDocLines d) ++ '\n' :: quoteOf ow node) := by
    rw [format_docstring, indent_text, indentLinesFrom_zero, quoteOf]
  have hmain : splitLines (format_docstring ow d node)
      = quoteOf ow node :: (pyDocLines d ++ [quoteOf ow node]) := by
    rw [hshape, splitLines_append_newline _ _ hqnl,
      splitLines_joinNL_append (pyDocLines d) _ hmid hlines_nl,
      splitLines_single _ hqnl hqne]
  refine ⟨hmain, ?_⟩
  intro l hl
  rw [hmain] at hl
  rcases List.mem_cons.mp hl with h0 | h0
  · exact Or.inl h0
  rcases List.mem_append.mp h0 with h1 | h1
  · rw [pyDocLines] at h1
    cases hsplit : splitLines d with
    | nil => rw [hsplit] at h1; simp at h1
    | cons a t =>
        rw [hsplit] at h1
        rcases List.mem_cons.mp h1 with h2 | h2
        · exact Or.inr (Or.inl (by rw [h2]; exact List.mem_cons_self a t))
        · obtain ⟨l0, hl0, hmap⟩ := List.mem_map.mp h2
          by_cases hblank : (pyStrip l0).isEmpty = true
          · rw [if_pos hblank] at hmap
            exact Or.inr (Or.inl (by
              rw [← hmap]; exact List.mem_cons_of_mem a hl0))
          · rw [if_neg hblank] at hmap
            exact Or.inr (Or.inr ⟨l0, List.mem_cons_of_mem a hl0, hmap.symm⟩)
  · exact Or.inl (List.mem_singleton.mp h1)

/-- C8, witness: the amended line structure at the concrete input `a\nb`
inserted into an empty-bodied function. -/
theorem C8_indentationShape_witness :
    (splitLines (format_docstring true (pystr "a\nb") c8Node)
        = quoteOf true c8Node
            :: (pyDocLines (pystr "a\nb") ++ [quoteOf true c8Node]))
    ∧ (∀ l ∈ splitLines (format_docstring true (pystr "a\nb") c8Node),
        l = quoteOf true c8Node
        ∨ l ∈ splitLines (pystr "a\nb")
        ∨ ∃ l0 ∈ splitLines (pystr "a\nb"), l = List.replicate 4 ' ' ++ l0) :=
  C8_indentationShape true c8Node (pystr "a\nb") (by decide)
